import Mathlib

/-!
Shallow embedding of `crlset.go` (robstradling/crlset-tools): the CRLSet
header parser (`getHeader`), the body-dump loop of `dump`, the policy-SPKI
dump (`dumpSPKIs`), the CRX container checks of `fetch`, and
`zipReader.ReadAt`.  Bytes are modelled as `Nat` values below 256; byte
buffers as `List Nat`.
-/

namespace Crlset

/-- One output line of the `dump` body loop: the unfiltered branch prints a
(fingerprint, serial) record, the filtered branch prints just the serial. -/
inductive OutLine where
  | record (fp serial : List Nat)
  | serialOnly (serial : List Nat)
deriving DecidableEq

/-- `uint32(c[0]) | uint32(c[1])<<8 | uint32(c[2])<<16 | uint32(c[3])<<24`
from `dump`.  The source ors the shifted bytes; for byte values below 256
the shifted components occupy disjoint bit ranges, so the or equals the sum
used here.  The source always guards this read with a `len(c) < 4` check,
matching the four-element pattern. -/
def decodeU32 : List Nat → Nat
  | b0 :: b1 :: b2 :: b3 :: _ => b0 + b1 * 256 + b2 * 65536 + b3 * 16777216
  | _ => 0

/-- The inner `for i := uint32(0); i < numSerials; i++` loop of `dump`
(crlset.go lines 250-269).  `e` is `len(spki) == 0` (no filter), `m` is
`spkiMatches`, `cur` is `current_spki`.  Instead of returning the advanced
slice it returns the number of bytes consumed (the caller drops them),
which keeps the recursion structural in the loop counter. -/
def dumpSerialLoop (e m : Bool) (cur : List Nat) : Nat → List Nat → Except String (List OutLine × Nat)
  | 0, _ => .ok ([], 0)
  | n + 1, c =>
    match c with
    | [] => .error "CRLSet truncated at serial length"
    | serialLen :: rest =>
      if rest.length < serialLen then .error "CRLSet truncated at serial"
      else
        match dumpSerialLoop e m cur n (rest.drop serialLen) with
        | .error err => .error err
        | .ok (outs, used) =>
          let emitted := if e then [OutLine.record cur (rest.take serialLen)]
                         else if m then [OutLine.serialOnly (rest.take serialLen)]
                         else []
          .ok (emitted ++ outs, 1 + serialLen + used)

/-- The outer `for len(c) > 0` loop of `dump` (crlset.go lines 229-270):
peel a 32-byte SPKI hash, a little-endian u32 serial count, then the serial
entries; stop successfully only when the buffer is empty. -/
def dumpBody (spki : List Nat) (c : List Nat) : Except String (List OutLine) :=
  if h0 : c.length = 0 then .ok []
  else if h1 : c.length < 32 then .error "CRLSet truncated at SPKI hash"
  else if h2 : (c.drop 32).length < 4 then .error "CRLSet truncated at serial count"
  else
    match dumpSerialLoop spki.isEmpty (spki == c.take 32)
        (if spki.isEmpty then c.take 32 else [])
        (decodeU32 (c.drop 32)) ((c.drop 32).drop 4) with
    | .error e => .error e
    | .ok (outs, used) =>
      match dumpBody spki (((c.drop 32).drop 4).drop used) with
      | .error e => .error e
      | .ok rest => .ok (outs ++ rest)
termination_by c.length
decreasing_by
  simp only [List.length_drop] at *
  omega

/-- `crlSetHeader` from crlset.go lines 189-195. -/
structure crlSetHeader where
  Sequence : Int
  NumParents : Int
  BlockedSPKIs : List String
  KnownInterceptionSPKIs : List String
  BlockedInterceptionSPKIs : List String
deriving DecidableEq

instance : Inhabited crlSetHeader := ⟨⟨0, 0, [], [], []⟩⟩

/-- `getHeader` (crlset.go lines 311-339), over the file's bytes (the
`ioutil.ReadFile` step is external I/O).  The JSON deserializer
`json.Unmarshal` is external standard-library code, passed in as `um`
(`none` models a returned error).  The first two bytes are a little-endian
u16 header length: `int(c[0]) | int(c[1])<<8`. -/
def getHeader (um : List Nat → Option crlSetHeader) :
    List Nat → Except String (crlSetHeader × List Nat)
  | b0 :: b1 :: r =>
    if r.length < b0 + b1 * 256 then .error "CRLSet truncated at header"
    else
      match um (r.take (b0 + b1 * 256)) with
      | none => .error "Failed to parse header"
      | some h => .ok (h, r.drop (b0 + b1 * 256))
  | _ => .error "CRLSet truncated at header length"

/-- `dump` (crlset.go lines 197-273) with the certificate-file branch
abstracted: `spki` is the already-computed 32-byte SHA-256 filter digest,
`[]` when no certificate file was given (the source keeps `spki` nil in
that case). -/
def dump (um : List Nat → Option crlSetHeader) (spki : List Nat) (file : List Nat) :
    Except String (List OutLine) :=
  match getHeader um file with
  | .error e => .error e
  | .ok (_, body) => dumpBody spki body

/-- Model of Go's `encoding/json` Unmarshal into `crlSetHeader` (external
standard-library code, not part of this repository), restricted to the two
inputs this development evaluates it on: the empty input is not a JSON
value and fails (`unexpected end of JSON input`), and the text `{}` is a
well-formed JSON object with every field absent, yielding the zero-valued
header.  Every other input is left unmodelled and conservatively mapped to
`none`; no theorem below evaluates it elsewhere. -/
def jsonUnmarshalHeader (c : List Nat) : Option crlSetHeader :=
  if c = [123, 125] then some ⟨0, 0, [], [], []⟩ else none

/-- One line of `dumpSPKIs` output: the per-entry diagnostic
`"%s is not a valid SPKI"` (stderr) or the hex digest line (stdout). -/
inductive SpkiLine where
  | diag (s : String)
  | digest (bs : List Nat)
deriving DecidableEq

/-- The inner loop of `dumpSPKIs` (crlset.go lines 298-305) over one
fingerprint list: base64-decode each entry (`b64` models the external
`base64.StdEncoding.DecodeString`, `none` for a returned error); a failed
entry produces a diagnostic and is skipped, a decoded one is printed. -/
def dumpSPKIsList (b64 : String → Option (List Nat)) (l : List String) : List SpkiLine :=
  l.map fun s =>
    match b64 s with
    | none => .diag s
    | some bs => .digest bs

/-- `dumpSPKIs` (crlset.go lines 275-309) after `getHeader` succeeded.  The
reflection loop visits struct fields in declaration order and keeps exactly
the three `[]string` fields whose names end in "SPKIs" (the type-mismatch
branch is unreachable for this fixed struct); it then always returns true. -/
def dumpSPKIs (b64 : String → Option (List Nat)) (h : crlSetHeader) : List SpkiLine × Bool :=
  (dumpSPKIsList b64 h.BlockedSPKIs ++ dumpSPKIsList b64 h.KnownInterceptionSPKIs ++
    dumpSPKIsList b64 h.BlockedInterceptionSPKIs, true)

/-- The magic bytes "Cr24" checked by `fetch`. -/
def crMagic : List Nat := [67, 114, 50, 52]

/-- The container-decoding slice of `fetch` (crlset.go lines 137-155), from
the downloaded bytes to the zip payload: `binary.Read` of the 12-byte
`crxHeader` (fails on shorter input), the magic / sign check, and
`crx.Next(headerLen)` which yields at most `headerLen` bytes.  Errors carry
the diagnostic printed by the source.  `int` is modelled at 64 bits, so the
`int(header.HeaderLen) < 0` test is the cast comparison written below. -/
def decodeContainer (crx : List Nat) : Except String (List Nat) :=
  if crx.length < 12 then .error "Failed to parse CRX header"
  else if crx.take 4 ≠ crMagic ∨ ((decodeU32 (crx.drop 8) : Int) < 0) then
    .error "Downloaded file doesn't look like a CRX"
  else
    let rest := crx.drop 12
    if (rest.take (decodeU32 (crx.drop 8))).length ≠ decodeU32 (crx.drop 8) then
      .error "Downloaded file doesn't look like a CRX"
    else .ok (rest.drop (decodeU32 (crx.drop 8)))

/-- `zipReader.ReadAt` (crlset.go lines 81-86): `p` is modelled by its
length, the result is the pair (bytes copied, returned error); `none`
models the panic of the slice expression `z[pos:]` when `pos` exceeds the
buffer length (that position is not handled by the method). -/
def zipReaderReadAt (z : List Nat) (plen : Nat) (pos : Int) : Option (Nat × Option String) :=
  if pos < 0 then some (0, none)
  else if pos.toNat ≤ z.length then some (min plen (z.length - pos.toNat), none)
  else none

/-! ### Specification-side descriptions of well-formed CRLSet bytes -/

/-- A parsed SPKI block: 32-byte fingerprint and its serials. -/
structure SpkiBlock where
  fp : List Nat
  serials : List (List Nat)
deriving DecidableEq

/-- One serial entry on the wire: a length byte then the serial bytes. -/
def encodeSerial (s : List Nat) : List Nat := s.length :: s

/-- The concatenated serial entries of a block. -/
def encodeSerials (es : List (List Nat)) : List Nat := (es.map encodeSerial).flatten

/-- Four little-endian bytes of a u32. -/
def u32le (n : Nat) : List Nat := [n % 256, n / 256 % 256, n / 65536 % 256, n / 16777216 % 256]

/-- Two little-endian bytes of a u16. -/
def u16le (n : Nat) : List Nat := [n % 256, n / 256 % 256]

/-- The wire form of one SPKI block. -/
def encodeBlock (b : SpkiBlock) : List Nat := b.fp ++ u32le b.serials.length ++ encodeSerials b.serials

/-- The wire form of a CRLSet body: the blocks in order, no terminator. -/
def encodeBody (bs : List SpkiBlock) : List Nat := (bs.map encodeBlock).flatten

/-- The wire form of a whole CRLSet file: u16 header length, header bytes,
then the body. -/
def encodeFile (hb : List Nat) (bs : List SpkiBlock) : List Nat :=
  u16le hb.length ++ hb ++ encodeBody bs

/-- Well-formedness of a block as a byte structure: 32 fingerprint bytes,
a count that fits in a u32, and serials whose length fits the length byte;
all values are bytes. -/
def wfBlock (b : SpkiBlock) : Prop :=
  b.fp.length = 32 ∧ (∀ x ∈ b.fp, x < 256) ∧ b.serials.length < 4294967296 ∧
    ∀ s ∈ b.serials, s.length ≤ 255 ∧ ∀ x ∈ s, x < 256

instance (b : SpkiBlock) : Decidable (wfBlock b) := by
  unfold wfBlock; infer_instance

/-- Well-formedness of a body: every block is well formed. -/
def wfBody (bs : List SpkiBlock) : Prop := ∀ b ∈ bs, wfBlock b

instance (bs : List SpkiBlock) : Decidable (wfBody bs) := by
  unfold wfBody; infer_instance

/-- The lines the serial loop prints for the given serials. -/
def emitLines (e m : Bool) (cur : List Nat) (es : List (List Nat)) : List OutLine :=
  if e then es.map (fun s => OutLine.record cur s)
  else if m then es.map OutLine.serialOnly
  else []

/-- The lines one block contributes to the dump under filter `spki`. -/
def blockOut (spki : List Nat) (b : SpkiBlock) : List OutLine :=
  emitLines spki.isEmpty (spki == b.fp) (if spki.isEmpty then b.fp else []) b.serials

/-- All lines of the dump of a body under filter `spki`. -/
def bodyOut (spki : List Nat) (bs : List SpkiBlock) : List OutLine :=
  (bs.map (blockOut spki)).flatten

/-- Size in bytes of one block on the wire. -/
def blockSize (b : SpkiBlock) : Nat :=
  32 + 4 + (b.serials.map (fun s => 1 + s.length)).sum

/-- The digest carried by a `dumpSPKIs` output line, if it is a data line. -/
def digestOf : SpkiLine → Option (List Nat)
  | .digest bs => some bs
  | .diag _ => none

/-- Whether a `dumpSPKIs` output line is a per-entry diagnostic. -/
def isDiag : SpkiLine → Bool
  | .diag _ => true
  | .digest _ => false

end Crlset

namespace Crlset

/-! ### Helper lemmas about the body loop -/

/-- Running the serial loop over a block's encoded serial entries followed by
`r` consumes exactly the encoded entries, emits their lines, and continues
on `r` with the remaining count. -/
theorem dumpSerialLoop_encode (e m : Bool) (cur : List Nat) (es : List (List Nat))
    (k : Nat) (r : List Nat) :
    dumpSerialLoop e m cur (es.length + k) (encodeSerials es ++ r) =
      (dumpSerialLoop e m cur k r).map
        (fun p => (emitLines e m cur es ++ p.1, (encodeSerials es).length + p.2)) := by
  induction es with
  | nil =>
    simp only [List.length_nil, Nat.zero_add, encodeSerials, List.map_nil, List.flatten_nil,
      List.nil_append, emitLines]
    cases dumpSerialLoop e m cur k r with
    | error err => simp [Except.map]
    | ok p => cases e <;> cases m <;> simp [Except.map]
  | cons s es ih =>
    have hlist : encodeSerials (s :: es) ++ r = s.length :: (s ++ (encodeSerials es ++ r)) := by
      simp [encodeSerials, encodeSerial, List.append_assoc]
    rw [hlist]
    have hn : (s :: es).length + k = es.length + k + 1 := by
      simp [List.length_cons]; omega
    rw [hn]
    simp only [dumpSerialLoop]
    have h1 : ¬ (s ++ (encodeSerials es ++ r)).length < s.length := by
      simp [List.length_append]
    rw [if_neg h1]
    have hdrop : (s ++ (encodeSerials es ++ r)).drop s.length = encodeSerials es ++ r :=
      List.drop_left s _
    have htake : (s ++ (encodeSerials es ++ r)).take s.length = s :=
      List.take_left s _
    rw [hdrop, htake, ih]
    cases hres : dumpSerialLoop e m cur k r with
    | error err => simp [Except.map]
    | ok p =>
      simp only [Except.map]
      have hemit : emitLines e m cur (s :: es) =
          (if e then [OutLine.record cur s] else if m then [OutLine.serialOnly s] else []) ++
            emitLines e m cur es := by
        cases e <;> cases m <;> simp [emitLines]
      have hlen : (encodeSerials (s :: es)).length = 1 + s.length + (encodeSerials es).length := by
        simp [encodeSerials, encodeSerial]; omega
      cases e <;> cases m <;> simp [hemit, hlen, emitLines] <;> omega

/-- Decoding the four little-endian bytes of `n` gives back `n`. -/
theorem decodeU32_u32le (n : Nat) (h : n < 4294967296) (r : List Nat) :
    decodeU32 (u32le n ++ r) = n := by
  simp only [u32le, List.cons_append, List.nil_append, decodeU32]
  omega

/-- The body loop accepts the empty buffer. -/
theorem dumpBody_nil (spki : List Nat) : dumpBody spki [] = .ok [] := by
  rw [dumpBody]
  simp

/-- Peeling one well-formed encoded block off the front of the buffer. -/
theorem dumpBody_block (spki : List Nat) (b : SpkiBlock) (t : List Nat)
    (hfp : b.fp.length = 32) (hcnt : b.serials.length < 4294967296) :
    dumpBody spki (encodeBlock b ++ t) =
      match dumpBody spki t with
      | .error e => .error e
      | .ok rest => .ok (blockOut spki b ++ rest) := by
  have hc : encodeBlock b ++ t =
      b.fp ++ (u32le b.serials.length ++ (encodeSerials b.serials ++ t)) := by
    simp [encodeBlock, List.append_assoc]
  rw [hc, dumpBody]
  have hu32 : (u32le b.serials.length).length = 4 := by simp [u32le]
  have hl0 : ¬ (b.fp ++ (u32le b.serials.length ++ (encodeSerials b.serials ++ t))).length = 0 := by
    simp [List.length_append, hfp]
  have hl1 : ¬ (b.fp ++ (u32le b.serials.length ++ (encodeSerials b.serials ++ t))).length < 32 := by
    simp [List.length_append, hfp]
  have hdrop32 : (b.fp ++ (u32le b.serials.length ++ (encodeSerials b.serials ++ t))).drop 32 =
      u32le b.serials.length ++ (encodeSerials b.serials ++ t) := List.drop_left' hfp
  have htake32 : (b.fp ++ (u32le b.serials.length ++ (encodeSerials b.serials ++ t))).take 32 =
      b.fp := List.take_left' hfp
  have hl2 : ¬ ((b.fp ++ (u32le b.serials.length ++ (encodeSerials b.serials ++ t))).drop 32).length < 4 := by
    rw [hdrop32]
    simp [List.length_append, hu32]
  rw [dif_neg hl0, dif_neg hl1, dif_neg hl2, htake32, hdrop32]
  have hdec : decodeU32 (u32le b.serials.length ++ (encodeSerials b.serials ++ t)) =
      b.serials.length := decodeU32_u32le _ hcnt _
  have hdrop4 : (u32le b.serials.length ++ (encodeSerials b.serials ++ t)).drop 4 =
      encodeSerials b.serials ++ t := List.drop_left' hu32
  rw [hdec, hdrop4]
  have hloop : dumpSerialLoop spki.isEmpty (spki == b.fp) (if spki.isEmpty then b.fp else [])
      b.serials.length (encodeSerials b.serials ++ t) =
      .ok (emitLines spki.isEmpty (spki == b.fp) (if spki.isEmpty then b.fp else []) b.serials,
        (encodeSerials b.serials).length) := by
    have h := dumpSerialLoop_encode spki.isEmpty (spki == b.fp)
      (if spki.isEmpty then b.fp else []) b.serials 0 t
    simpa [dumpSerialLoop, Except.map] using h
  rw [hloop]
  have hdropused : (encodeSerials b.serials ++ t).drop (encodeSerials b.serials).length = t :=
    List.drop_left _ _
  show (match dumpBody spki ((encodeSerials b.serials ++ t).drop (encodeSerials b.serials).length) with
    | Except.error e => (Except.error e : Except String (List OutLine))
    | Except.ok rest =>
        Except.ok (emitLines spki.isEmpty (spki == b.fp) (if spki.isEmpty then b.fp else []) b.serials
          ++ rest)) = _
  rw [hdropused]
  cases dumpBody spki t <;> simp [blockOut]

/-- Peeling a whole encoded body off the front of the buffer. -/
theorem dumpBody_encode_append (spki : List Nat) (bs : List SpkiBlock) (t : List Nat)
    (hw : ∀ b ∈ bs, b.fp.length = 32 ∧ b.serials.length < 4294967296) :
    dumpBody spki (encodeBody bs ++ t) =
      match dumpBody spki t with
      | .error e => .error e
      | .ok rest => .ok (bodyOut spki bs ++ rest) := by
  induction bs with
  | nil =>
    simp only [encodeBody, List.map_nil, List.flatten_nil, List.nil_append, bodyOut]
    cases dumpBody spki t <;> simp
  | cons b bs ih =>
    have hb := hw b (by simp)
    have hbs : ∀ b' ∈ bs, b'.fp.length = 32 ∧ b'.serials.length < 4294967296 :=
      fun b' h' => hw b' (by simp [h'])
    have hsplit : encodeBody (b :: bs) ++ t = encodeBlock b ++ (encodeBody bs ++ t) := by
      simp [encodeBody, List.append_assoc]
    rw [hsplit, dumpBody_block spki b _ hb.1 hb.2, ih hbs]
    cases dumpBody spki t <;> simp [bodyOut]

/-- The body loop on a fully well-formed encoded body yields exactly the
per-block output lines and succeeds. -/
theorem dumpBody_encode (spki : List Nat) (bs : List SpkiBlock)
    (hw : ∀ b ∈ bs, b.fp.length = 32 ∧ b.serials.length < 4294967296) :
    dumpBody spki (encodeBody bs) = .ok (bodyOut spki bs) := by
  have h := dumpBody_encode_append spki bs [] hw
  simpa [dumpBody_nil] using h

/-- Variant of `dumpSerialLoop_encode` with nothing after the entries. -/
theorem dumpSerialLoop_encode2 (e m : Bool) (cur : List Nat) (es : List (List Nat)) (k : Nat) :
    dumpSerialLoop e m cur (es.length + k) (encodeSerials es) =
      (dumpSerialLoop e m cur k []).map
        (fun p => (emitLines e m cur es ++ p.1, (encodeSerials es).length + p.2)) := by
  have h := dumpSerialLoop_encode e m cur es k []
  simpa using h

/-- Unfolding one block header (fingerprint and count) of the body loop. -/
theorem dumpBody_header (spki : List Nat) (fp : List Nat) (n : Nat) (Y : List Nat)
    (hfp : fp.length = 32) (hn : n < 4294967296) :
    dumpBody spki (fp ++ (u32le n ++ Y)) =
      match dumpSerialLoop spki.isEmpty (spki == fp) (if spki.isEmpty then fp else []) n Y with
      | .error e => .error e
      | .ok (outs, used) =>
        match dumpBody spki (Y.drop used) with
        | .error e => .error e
        | .ok rest => .ok (outs ++ rest) := by
  rw [dumpBody]
  have hu32 : (u32le n).length = 4 := by simp [u32le]
  have hl0 : ¬ (fp ++ (u32le n ++ Y)).length = 0 := by
    simp [List.length_append, hfp]
  have hl1 : ¬ (fp ++ (u32le n ++ Y)).length < 32 := by
    simp [List.length_append, hfp]
  have hdrop32 : (fp ++ (u32le n ++ Y)).drop 32 = u32le n ++ Y := List.drop_left' hfp
  have htake32 : (fp ++ (u32le n ++ Y)).take 32 = fp := List.take_left' hfp
  have hl2 : ¬ ((fp ++ (u32le n ++ Y)).drop 32).length < 4 := by
    rw [hdrop32]; simp [List.length_append, hu32]
  rw [dif_neg hl0, dif_neg hl1, dif_neg hl2, htake32, hdrop32,
    decodeU32_u32le n hn Y, List.drop_left' hu32]

/-- A nonzero remainder shorter than a fingerprint stops with the SPKI-hash
truncation error. -/
theorem dumpBody_trunc_hash (spki t : List Nat) (h1 : 0 < t.length) (h2 : t.length < 32) :
    dumpBody spki t = .error "CRLSet truncated at SPKI hash" := by
  rw [dumpBody, dif_neg (by omega), dif_pos h2]

/-- A fingerprint followed by fewer than four bytes stops with the
serial-count truncation error. -/
theorem dumpBody_trunc_count (spki fp u : List Nat) (hfp : fp.length = 32) (hu : u.length < 4) :
    dumpBody spki (fp ++ u) = .error "CRLSet truncated at serial count" := by
  rw [dumpBody]
  have hl0 : ¬ (fp ++ u).length = 0 := by simp [List.length_append, hfp]
  have hl1 : ¬ (fp ++ u).length < 32 := by simp [List.length_append, hfp]
  have hdrop32 : (fp ++ u).drop 32 = u := List.drop_left' hfp
  rw [dif_neg hl0, dif_neg hl1, dif_pos (by rw [hdrop32]; exact hu)]

/-- A declared count larger than the number of present entries stops with
the serial-length truncation error when the buffer ends. -/
theorem dumpBody_trunc_serialLen (spki fp : List Nat) (n : Nat) (es : List (List Nat))
    (hfp : fp.length = 32) (hn : n < 4294967296) (hes : es.length < n) :
    dumpBody spki (fp ++ (u32le n ++ encodeSerials es)) =
      .error "CRLSet truncated at serial length" := by
  rw [dumpBody_header spki fp n _ hfp hn]
  have hk : n = es.length + (n - es.length - 1 + 1) := by omega
  rw [hk, dumpSerialLoop_encode2]
  simp [dumpSerialLoop, Except.map]

/-- A length byte declaring more bytes than remain stops with the serial
truncation error. -/
theorem dumpBody_trunc_serial (spki fp : List Nat) (n : Nat) (es : List (List Nat))
    (L : Nat) (v : List Nat) (hfp : fp.length = 32) (hn : n < 4294967296)
    (hes : es.length < n) (hv : v.length < L) :
    dumpBody spki (fp ++ (u32le n ++ (encodeSerials es ++ L :: v))) =
      .error "CRLSet truncated at serial" := by
  rw [dumpBody_header spki fp n _ hfp hn]
  have hk : n = es.length + (n - es.length - 1 + 1) := by omega
  rw [hk, dumpSerialLoop_encode]
  simp [dumpSerialLoop, hv, Except.map]

end Crlset

namespace Crlset

/-- A well-formed body gives the structural facts the body-loop lemmas need. -/
theorem wfBody_fp (bs : List SpkiBlock) (hw : wfBody bs) :
    ∀ b ∈ bs, b.fp.length = 32 ∧ b.serials.length < 4294967296 :=
  fun b hb => ⟨(hw b hb).1, (hw b hb).2.2.1⟩

/-- A 32-byte filter is not the empty (absent) filter. -/
theorem isEmpty_false_of_ne_nil (spki : List Nat) (h : spki ≠ []) : spki.isEmpty = false := by
  cases spki with
  | nil => exact absurd rfl h
  | cons a l => rfl

/-- Under a present filter, a block whose fingerprint equals the filter
contributes exactly its serials, as bare serial lines. -/
theorem blockOut_match (spki : List Nat) (b : SpkiBlock) (hne : spki ≠ [])
    (hfp : b.fp = spki) : blockOut spki b = b.serials.map OutLine.serialOnly := by
  have h1 : spki.isEmpty = false := isEmpty_false_of_ne_nil spki hne
  have h2 : (spki == b.fp) = true := by rw [hfp]; exact beq_self_eq_true spki
  simp [blockOut, h1, h2, emitLines]

/-- Under a present filter, a block whose fingerprint differs contributes
nothing. -/
theorem blockOut_nomatch (spki : List Nat) (b : SpkiBlock) (hne : spki ≠ [])
    (hfp : b.fp ≠ spki) : blockOut spki b = [] := by
  have h1 : spki.isEmpty = false := isEmpty_false_of_ne_nil spki hne
  have h2 : (spki == b.fp) = false := beq_eq_false_iff_ne.mpr (fun h => hfp h.symm)
  simp [blockOut, h1, h2, emitLines]

/-- With no filter, a block contributes one (fingerprint, serial) record
per serial. -/
theorem blockOut_unfiltered (b : SpkiBlock) :
    blockOut [] b = b.serials.map (fun s => OutLine.record b.fp s) := by
  simp [blockOut, emitLines]

/-- A body with no matching block contributes nothing under a present filter. -/
theorem bodyOut_nil_of_nomatch (spki : List Nat) (bs : List SpkiBlock) (hne : spki ≠ [])
    (h : ∀ b ∈ bs, b.fp ≠ spki) : bodyOut spki bs = [] := by
  induction bs with
  | nil => simp [bodyOut]
  | cons b bs ih =>
    simp only [bodyOut, List.map_cons, List.flatten_cons]
    rw [blockOut_nomatch spki b hne (h b (by simp))]
    simpa [bodyOut] using ih (fun b' h' => h b' (by simp [h']))

/-- Under a present filter, the dump output is the concatenation, in block
order, of the serial lists of exactly the blocks whose fingerprint equals
the filter. -/
theorem bodyOut_filter (spki : List Nat) (hne : spki ≠ []) (bs : List SpkiBlock) :
    bodyOut spki bs =
      ((bs.filter (fun b => b.fp == spki)).map
        (fun b => b.serials.map OutLine.serialOnly)).flatten := by
  induction bs with
  | nil => simp [bodyOut]
  | cons b bs ih =>
    by_cases hb : b.fp = spki
    · rw [bodyOut, List.map_cons, List.flatten_cons, blockOut_match spki b hne hb,
        List.filter_cons_of_pos (by simpa using hb), List.map_cons, List.flatten_cons]
      rw [bodyOut] at ih
      rw [ih]
    · rw [bodyOut, List.map_cons, List.flatten_cons, blockOut_nomatch spki b hne hb,
        List.filter_cons_of_neg (by simpa using hb)]
      rw [bodyOut] at ih
      rw [ih, List.nil_append]

/-- Encoded serial entries take one length byte plus the serial bytes each. -/
theorem encodeSerials_length (es : List (List Nat)) :
    (encodeSerials es).length = (es.map (fun s => 1 + s.length)).sum := by
  induction es with
  | nil => simp [encodeSerials]
  | cons s es ih => simp [encodeSerials, encodeSerial, List.length_append] at *; omega

/-- The encoded body length is the sum of the per-block sizes. -/
theorem encodeBody_length (bs : List SpkiBlock) (hw : ∀ b ∈ bs, b.fp.length = 32) :
    (encodeBody bs).length = (bs.map blockSize).sum := by
  induction bs with
  | nil => simp [encodeBody]
  | cons b bs ih =>
    have hb := hw b (by simp)
    have hbs : ∀ b' ∈ bs, b'.fp.length = 32 := fun b' h' => hw b' (by simp [h'])
    simp only [encodeBody, List.map_cons, List.flatten_cons, List.length_append, List.sum_cons]
    rw [show ((bs.map encodeBlock).flatten).length = (encodeBody bs).length from rfl, ih hbs]
    simp [encodeBlock, List.length_append, hb, u32le, encodeSerials_length, blockSize]
    omega

/-- On a list of entries the decoder accepts, `dumpSPKIs` emits exactly
their decodings and no diagnostics. -/
theorem dumpSPKIsList_valid (b64 : String → Option (List Nat)) (l : List String)
    (h : ∀ s ∈ l, (b64 s).isSome) :
    (dumpSPKIsList b64 l).filterMap digestOf = l.filterMap b64 ∧
    (dumpSPKIsList b64 l).countP isDiag = 0 := by
  induction l with
  | nil => simp [dumpSPKIsList]
  | cons s l ih =>
    have hs := h s (by simp)
    obtain ⟨d, hd⟩ := Option.isSome_iff_exists.mp hs
    have ihl := ih (fun s' h' => h s' (by simp [h']))
    constructor
    · simp only [dumpSPKIsList, List.map_cons, hd, List.filterMap_cons]
      simp only [dumpSPKIsList] at ihl
      simp [digestOf, ihl.1, hd]
    · simp only [dumpSPKIsList, List.map_cons, hd, List.countP_cons]
      simp only [dumpSPKIsList] at ihl
      simp [isDiag, ihl.2]

/-- A list of entries the decoder accepts decodes to one digest each. -/
theorem filterMap_length_valid (b64 : String → Option (List Nat)) (l : List String)
    (h : ∀ s ∈ l, (b64 s).isSome) : (l.filterMap b64).length = l.length := by
  induction l with
  | nil => simp
  | cons s l ih =>
    obtain ⟨d, hd⟩ := Option.isSome_iff_exists.mp (h s (by simp))
    simp [List.filterMap_cons, hd, ih (fun s' h' => h s' (by simp [h']))]

/-- The three per-list loops of `dumpSPKIs` behave like one loop over the
concatenated lists. -/
theorem dumpSPKIs_concat (b64 : String → Option (List Nat)) (h : crlSetHeader) :
    (dumpSPKIs b64 h).1 =
      dumpSPKIsList b64
        (h.BlockedSPKIs ++ h.KnownInterceptionSPKIs ++ h.BlockedInterceptionSPKIs) := by
  simp [dumpSPKIs, dumpSPKIsList, List.map_append]

end Crlset

namespace Crlset

/-- A whole encoded file whose header bytes deserialize dumps to exactly
the body's per-block output lines. -/
theorem dump_encodeFile (um : List Nat → Option crlSetHeader) (spki hb : List Nat)
    (h : crlSetHeader) (bs : List SpkiBlock) (hum : um hb = some h)
    (hlen : hb.length < 65536)
    (hw : ∀ b ∈ bs, b.fp.length = 32 ∧ b.serials.length < 4294967296) :
    dump um spki (encodeFile hb bs) = .ok (bodyOut spki bs) := by
  have hfile : encodeFile hb bs =
      hb.length % 256 :: hb.length / 256 % 256 :: (hb ++ encodeBody bs) := by
    simp [encodeFile, u16le, List.append_assoc]
  have hdec : hb.length % 256 + hb.length / 256 % 256 * 256 = hb.length := by omega
  have hgh : getHeader um (hb.length % 256 :: hb.length / 256 % 256 :: (hb ++ encodeBody bs)) =
      .ok (h, encodeBody bs) := by
    simp only [getHeader, hdec]
    rw [if_neg (by simp only [List.length_append]; omega)]
    rw [List.take_left, List.drop_left, hum]
  unfold dump
  rw [hfile, hgh]
  exact dumpBody_encode spki bs hw

end Crlset

namespace Crlset

/-! ### Claim theorems -/

/-- Claim C1: for a well-formed body, dumping with a 32-byte filter
fingerprint that equals the fingerprint of exactly one block yields exactly
that block's serials, in their original order and no others; dumping with a
32-byte filter fingerprint that equals no block's fingerprint yields the
empty sequence and succeeds. -/
theorem claim1_filtered_dump_exact (spki : List Nat) (hs : spki.length = 32) :
    (∀ (b1 : List SpkiBlock) (b : SpkiBlock) (b2 : List SpkiBlock),
      wfBody (b1 ++ b :: b2) → b.fp = spki → (∀ b' ∈ b1 ++ b2, b'.fp ≠ spki) →
      dumpBody spki (encodeBody (b1 ++ b :: b2)) = .ok (b.serials.map OutLine.serialOnly))
    ∧ (∀ bs : List SpkiBlock, wfBody bs → (∀ b' ∈ bs, b'.fp ≠ spki) →
      dumpBody spki (encodeBody bs) = .ok []) := by
  have hne : spki ≠ [] := by intro h; rw [h] at hs; simp at hs
  constructor
  · intro b1 b b2 hw hfp hun
    rw [dumpBody_encode spki _ (wfBody_fp _ hw)]
    have h1 : ∀ b' ∈ b1, b'.fp ≠ spki := fun b' h' => hun b' (by simp [h'])
    have h2 : ∀ b' ∈ b2, b'.fp ≠ spki := fun b' h' => hun b' (by simp [h'])
    have hsplit : bodyOut spki (b1 ++ b :: b2) =
        bodyOut spki b1 ++ (blockOut spki b ++ bodyOut spki b2) := by
      simp [bodyOut, List.map_append, List.flatten_append]
    rw [hsplit, bodyOut_nil_of_nomatch spki b1 hne h1, bodyOut_nil_of_nomatch spki b2 hne h2,
      blockOut_match spki b hne hfp]
    simp
  · intro bs hw hun
    rw [dumpBody_encode spki bs (wfBody_fp bs hw), bodyOut_nil_of_nomatch spki bs hne hun]

/-- Witness for claim C1 at a concrete two-block body: the filter equal to
the first block's fingerprint selects exactly its serials; a filter equal
to no fingerprint yields the empty output. -/
theorem claim1_filtered_dump_exact_witness :
    (List.replicate 32 0 : List Nat).length = 32
    ∧ wfBody [⟨List.replicate 32 0, [[171], [1, 2]]⟩, ⟨List.replicate 32 1, [[5]]⟩]
    ∧ dumpBody (List.replicate 32 0)
        (encodeBody [⟨List.replicate 32 0, [[171], [1, 2]]⟩, ⟨List.replicate 32 1, [[5]]⟩]) =
      .ok [OutLine.serialOnly [171], OutLine.serialOnly [1, 2]]
    ∧ dumpBody (List.replicate 32 2)
        (encodeBody [⟨List.replicate 32 0, [[171], [1, 2]]⟩, ⟨List.replicate 32 1, [[5]]⟩]) =
      .ok [] := by
  refine ⟨by decide, by decide, ?_, ?_⟩
  · exact (claim1_filtered_dump_exact (List.replicate 32 0) (by decide)).1 []
      ⟨List.replicate 32 0, [[171], [1, 2]]⟩ [⟨List.replicate 32 1, [[5]]⟩]
      (by decide) rfl (by decide)
  · exact (claim1_filtered_dump_exact (List.replicate 32 2) (by decide)).2
      [⟨List.replicate 32 0, [[171], [1, 2]]⟩, ⟨List.replicate 32 1, [[5]]⟩]
      (by decide) (by decide)

/-- Claim C10: the filtered dump does not stop after the first matching
block; every block whose fingerprint equals the filter contributes its
serials, so the output is the concatenation, in block order, of the serial
lists of all matching blocks. -/
theorem claim10_filter_all_blocks (spki : List Nat) (hs : spki.length = 32)
    (bs : List SpkiBlock) (hw : wfBody bs) :
    dumpBody spki (encodeBody bs) =
      .ok (((bs.filter (fun b => b.fp == spki)).map
        (fun b => b.serials.map OutLine.serialOnly)).flatten) := by
  have hne : spki ≠ [] := by intro h; rw [h] at hs; simp at hs
  rw [dumpBody_encode spki bs (wfBody_fp bs hw), bodyOut_filter spki hne bs]

/-- Witness for claim C10: two blocks share a fingerprint around a
non-matching block; the filtered dump concatenates both serial lists. -/
theorem claim10_filter_all_blocks_witness :
    wfBody [⟨List.replicate 32 0, [[1]]⟩, ⟨List.replicate 32 1, [[9]]⟩,
      ⟨List.replicate 32 0, [[2, 3]]⟩]
    ∧ dumpBody (List.replicate 32 0)
        (encodeBody [⟨List.replicate 32 0, [[1]]⟩, ⟨List.replicate 32 1, [[9]]⟩,
          ⟨List.replicate 32 0, [[2, 3]]⟩]) =
      .ok [OutLine.serialOnly [1], OutLine.serialOnly [2, 3]] := by
  refine ⟨by decide, ?_⟩
  rw [claim10_filter_all_blocks (List.replicate 32 0) (by decide) _ (by decide)]
  rfl

/-- Claim C5: decoding the header and then iterating the body of a valid
buffer consumes every body byte exactly once and stops exactly at the end
of the buffer: the dump succeeds, and the body length equals the sum over
blocks of (32 + 4 + the sum over entries of (1 + serial length)). -/
theorem claim5_full_consumption (um : List Nat → Option crlSetHeader) (spki hb : List Nat)
    (h : crlSetHeader) (bs : List SpkiBlock) (hum : um hb = some h)
    (hlen : hb.length < 65536) (hw : wfBody bs) :
    dump um spki (encodeFile hb bs) = .ok (bodyOut spki bs)
    ∧ (encodeBody bs).length = (bs.map blockSize).sum := by
  exact ⟨dump_encodeFile um spki hb h bs hum hlen (wfBody_fp bs hw),
    encodeBody_length bs (fun b hb' => (hw b hb').1)⟩

/-- Witness for claim C5 at a concrete one-block file with header bytes
equal to a two-byte JSON object. -/
theorem claim5_full_consumption_witness :
    jsonUnmarshalHeader [123, 125] = some ⟨0, 0, [], [], []⟩
    ∧ ([123, 125] : List Nat).length < 65536
    ∧ wfBody [⟨List.replicate 32 0, [[171], [1, 2]]⟩]
    ∧ dump jsonUnmarshalHeader [] (encodeFile [123, 125] [⟨List.replicate 32 0, [[171], [1, 2]]⟩]) =
      .ok (bodyOut [] [⟨List.replicate 32 0, [[171], [1, 2]]⟩])
    ∧ (encodeBody [⟨List.replicate 32 0, [[171], [1, 2]]⟩]).length =
      (([⟨List.replicate 32 0, [[171], [1, 2]]⟩] : List SpkiBlock).map blockSize).sum := by
  have h := claim5_full_consumption jsonUnmarshalHeader [] [123, 125] ⟨0, 0, [], [], []⟩
    [⟨List.replicate 32 0, [[171], [1, 2]]⟩] rfl (by decide) (by decide)
  exact ⟨rfl, by decide, by decide, h.1, h.2⟩

/-- Claim C3: appended after any well-formed prefix of complete blocks, a
prematurely ending body fails with the Truncated error naming the exact
stage: fewer than 32 bytes at a block start gives the SPKI-hash error;
fewer than 4 count bytes gives the serial-count error; a missing length
byte while the declared count still requires entries (for instance count 3
with only 2 entries present) gives the serial-length error; fewer than L
bytes after a length byte declaring L gives the serial error.  In
particular a nonzero remainder smaller than a block errors rather than
stopping silently. -/
theorem claim3_truncation_stages (spki : List Nat) (bs : List SpkiBlock) (hw : wfBody bs) :
    (∀ t : List Nat, 0 < t.length → t.length < 32 →
      dumpBody spki (encodeBody bs ++ t) = .error "CRLSet truncated at SPKI hash")
    ∧ (∀ fp u : List Nat, fp.length = 32 → u.length < 4 →
      dumpBody spki (encodeBody bs ++ (fp ++ u)) = .error "CRLSet truncated at serial count")
    ∧ (∀ (fp : List Nat) (n : Nat) (es : List (List Nat)), fp.length = 32 →
      n < 4294967296 → es.length < n →
      dumpBody spki (encodeBody bs ++ (fp ++ (u32le n ++ encodeSerials es))) =
        .error "CRLSet truncated at serial length")
    ∧ (∀ (fp : List Nat) (n : Nat) (es : List (List Nat)) (L : Nat) (v : List Nat),
      fp.length = 32 → n < 4294967296 → es.length < n → v.length < L →
      dumpBody spki (encodeBody bs ++ (fp ++ (u32le n ++ (encodeSerials es ++ L :: v)))) =
        .error "CRLSet truncated at serial") := by
  have hw' := wfBody_fp bs hw
  refine ⟨?_, ?_, ?_, ?_⟩
  · intro t h1 h2
    rw [dumpBody_encode_append spki bs t hw', dumpBody_trunc_hash spki t h1 h2]
  · intro fp u hfp hu
    rw [dumpBody_encode_append spki bs _ hw', dumpBody_trunc_count spki fp u hfp hu]
  · intro fp n es hfp hn hes
    rw [dumpBody_encode_append spki bs _ hw', dumpBody_trunc_serialLen spki fp n es hfp hn hes]
  · intro fp n es L v hfp hn hes hv
    rw [dumpBody_encode_append spki bs _ hw', dumpBody_trunc_serial spki fp n es L v hfp hn hes hv]

/-- Witness for claim C3; the serial-length case is the count-3-with-2-
entries scenario. -/
theorem claim3_truncation_stages_witness :
    wfBody ([] : List SpkiBlock)
    ∧ dumpBody [] (encodeBody [] ++ [7]) = .error "CRLSet truncated at SPKI hash"
    ∧ dumpBody [] (encodeBody [] ++ (List.replicate 32 0 ++ [1, 2])) =
      .error "CRLSet truncated at serial count"
    ∧ dumpBody []
        (encodeBody [] ++ (List.replicate 32 0 ++ (u32le 3 ++ encodeSerials [[171], [1, 2]]))) =
      .error "CRLSet truncated at serial length"
    ∧ dumpBody []
        (encodeBody [] ++ (List.replicate 32 0 ++ (u32le 1 ++ (encodeSerials [] ++ 2 :: [1])))) =
      .error "CRLSet truncated at serial" := by
  have h := claim3_truncation_stages [] [] (by decide)
  refine ⟨by decide, ?_, ?_, ?_, ?_⟩
  · exact h.1 [7] (by decide) (by decide)
  · exact h.2.1 (List.replicate 32 0) [1, 2] (by decide) (by decide)
  · exact h.2.2.1 (List.replicate 32 0) 3 [[171], [1, 2]] (by decide) (by decide) (by decide)
  · exact h.2.2.2 (List.replicate 32 0) 1 [] 2 [1] (by decide) (by decide) (by decide) (by decide)

end Crlset

namespace Crlset

/-- Claim C4: the header parser reads the first two bytes as an unsigned
16-bit little-endian header length (a 2-byte field, not the 4-byte format
of the body counts) and then takes exactly that many bytes as the header;
fewer than two bytes fails truncated at header length; a remainder shorter
than the declared length fails truncated at header. -/
theorem claim4_header_u16 (um : List Nat → Option crlSetHeader) :
    (∀ c : List Nat, c.length < 2 → getHeader um c = .error "CRLSet truncated at header length")
    ∧ (∀ (b0 b1 : Nat) (r : List Nat), r.length < b0 + b1 * 256 →
      getHeader um (b0 :: b1 :: r) = .error "CRLSet truncated at header")
    ∧ (∀ (b0 b1 : Nat) (r : List Nat) (h : crlSetHeader), b0 + b1 * 256 ≤ r.length →
      um (r.take (b0 + b1 * 256)) = some h →
      getHeader um (b0 :: b1 :: r) = .ok (h, r.drop (b0 + b1 * 256))) := by
  refine ⟨?_, ?_, ?_⟩
  · intro c hc
    match c with
    | [] => rfl
    | [x] => rfl
    | x :: y :: r =>
      simp only [List.length_cons] at hc
      omega
  · intro b0 b1 r hr
    simp [getHeader, hr]
  · intro b0 b1 r h hle hum
    simp [getHeader, Nat.not_lt.mpr hle, hum]

/-- Witness for claim C4: a one-byte file, a declared length longer than
the remainder, and a successful one-byte header take. -/
theorem claim4_header_u16_witness :
    ([5] : List Nat).length < 2
    ∧ getHeader (fun _ => some ⟨0, 0, [], [], []⟩) [5] =
      .error "CRLSet truncated at header length"
    ∧ getHeader (fun _ => some ⟨0, 0, [], [], []⟩) [2, 0, 9] =
      .error "CRLSet truncated at header"
    ∧ getHeader (fun _ => some ⟨0, 0, [], [], []⟩) [1, 0, 9, 8] =
      .ok (⟨0, 0, [], [], []⟩, [8]) := by
  have h := claim4_header_u16 (fun _ => some ⟨0, 0, [], [], []⟩)
  refine ⟨by decide, h.1 [5] (by decide), h.2.1 2 0 [9] (by decide), ?_⟩
  exact h.2.2 1 0 [9, 8] ⟨0, 0, [], [], []⟩ (by decide) rfl

/-- Claim C6: when the declared header bytes are all present but do not
deserialize as the header structure, the whole dump fails with the
header-parse error; no body records are produced (the result is an error,
not a record list), unlike the per-entry leniency of dumpSPKIs. -/
theorem claim6_header_malformed (um : List Nat → Option crlSetHeader) (spki : List Nat)
    (b0 b1 : Nat) (r : List Nat) (hle : b0 + b1 * 256 ≤ r.length)
    (hum : um (r.take (b0 + b1 * 256)) = none) :
    dump um spki (b0 :: b1 :: r) = .error "Failed to parse header" := by
  unfold dump
  simp [getHeader, Nat.not_lt.mpr hle, hum]

/-- Witness for claim C6 with a deserializer that rejects everything. -/
theorem claim6_header_malformed_witness :
    0 + 0 * 256 ≤ ([] : List Nat).length
    ∧ dump (fun _ => none) [] [0, 0] = .error "Failed to parse header" := by
  refine ⟨by decide, ?_⟩
  exact claim6_header_malformed (fun _ => none) [] 0 0 [] (by decide) rfl

/-- Claim C2 counterexample: on the exact buffer of the claim — 2-byte
header length 0, then the block 00×32, count 2, entries (1, AB) and
(2, 01 02) — `dump` fails at the header-parse step, because the zero-length
header byte string is not a JSON value; the unfiltered dump therefore does
not succeed with the two records. -/
theorem claim2_counterexample :
    dump jsonUnmarshalHeader []
      (0 :: 0 :: (List.replicate 32 0 ++ [2, 0, 0, 0, 1, 171, 2, 1, 2])) =
      .error "Failed to parse header" := rfl

/-- Claim C2 amended: with the header corrected to the two-byte JSON object
`{}` (declared length 2) followed by the same single block, the unfiltered
dump succeeds with the two (fingerprint, serial) records, the dump filtered
by 00×32 yields the serials AB and 01 02, and the dump filtered by ff×32
yields the empty output. -/
theorem claim2_concrete_dump :
    dump jsonUnmarshalHeader []
        (encodeFile [123, 125] [⟨List.replicate 32 0, [[171], [1, 2]]⟩]) =
      .ok [OutLine.record (List.replicate 32 0) [171],
        OutLine.record (List.replicate 32 0) [1, 2]]
    ∧ dump jsonUnmarshalHeader (List.replicate 32 0)
        (encodeFile [123, 125] [⟨List.replicate 32 0, [[171], [1, 2]]⟩]) =
      .ok [OutLine.serialOnly [171], OutLine.serialOnly [1, 2]]
    ∧ dump jsonUnmarshalHeader (List.replicate 32 255)
        (encodeFile [123, 125] [⟨List.replicate 32 0, [[171], [1, 2]]⟩]) =
      .ok [] := by
  have hw : ∀ b ∈ [(⟨List.replicate 32 0, [[171], [1, 2]]⟩ : SpkiBlock)],
      b.fp.length = 32 ∧ b.serials.length < 4294967296 := by decide
  refine ⟨?_, ?_, ?_⟩
  · rw [dump_encodeFile jsonUnmarshalHeader [] [123, 125] ⟨0, 0, [], [], []⟩ _ rfl
      (by decide) hw]
    rfl
  · rw [dump_encodeFile jsonUnmarshalHeader (List.replicate 32 0) [123, 125]
      ⟨0, 0, [], [], []⟩ _ rfl (by decide) hw]
    rfl
  · rw [dump_encodeFile jsonUnmarshalHeader (List.replicate 32 255) [123, 125]
      ⟨0, 0, [], [], []⟩ _ rfl (by decide) hw]
    rfl

/-- Claim C7: with N valid base64 entries and one malformed entry across
the three fingerprint lists, dumpSPKIs yields exactly the N decoded digests
of the valid entries in order (never fewer), emits exactly one diagnostic,
does not abort the remaining entries, and the operation succeeds. -/
theorem claim7_spki_leniency (b64 : String → Option (List Nat)) (h : crlSetHeader)
    (pre post : List String) (bad : String)
    (hsplit : h.BlockedSPKIs ++ h.KnownInterceptionSPKIs ++ h.BlockedInterceptionSPKIs =
      pre ++ bad :: post)
    (hpre : ∀ s ∈ pre, (b64 s).isSome) (hpost : ∀ s ∈ post, (b64 s).isSome)
    (hbad : b64 bad = none) :
    (dumpSPKIs b64 h).2 = true
    ∧ (dumpSPKIs b64 h).1.filterMap digestOf = pre.filterMap b64 ++ post.filterMap b64
    ∧ ((dumpSPKIs b64 h).1.filterMap digestOf).length = pre.length + post.length
    ∧ (dumpSPKIs b64 h).1.countP isDiag = 1 := by
  have hout : (dumpSPKIs b64 h).1 =
      dumpSPKIsList b64 pre ++ (SpkiLine.diag bad :: dumpSPKIsList b64 post) := by
    rw [dumpSPKIs_concat, hsplit]
    simp [dumpSPKIsList, List.map_append, hbad]
  have hp := dumpSPKIsList_valid b64 pre hpre
  have hq := dumpSPKIsList_valid b64 post hpost
  refine ⟨rfl, ?_, ?_, ?_⟩
  · rw [hout]
    simp [List.filterMap_append, List.filterMap_cons, digestOf, hp.1, hq.1]
  · rw [hout]
    simp [List.filterMap_append, List.filterMap_cons, digestOf, hp.1, hq.1,
      filterMap_length_valid b64 pre hpre, filterMap_length_valid b64 post hpost]
  · rw [hout]
    simp [List.countP_append, List.countP_cons, isDiag, hp.2, hq.2]

/-- Witness for claim C7: one malformed entry between two valid ones across
the three lists. -/
theorem claim7_spki_leniency_witness :
    (dumpSPKIs (fun s => if s = "!" then none else some [7]) ⟨0, 0, ["A"], ["!"], ["B"]⟩).2 = true
    ∧ (dumpSPKIs (fun s => if s = "!" then none else some [7])
        ⟨0, 0, ["A"], ["!"], ["B"]⟩).1.filterMap digestOf = [[7]] ++ [[7]]
    ∧ ((dumpSPKIs (fun s => if s = "!" then none else some [7])
        ⟨0, 0, ["A"], ["!"], ["B"]⟩).1.filterMap digestOf).length = 1 + 1
    ∧ (dumpSPKIs (fun s => if s = "!" then none else some [7])
        ⟨0, 0, ["A"], ["!"], ["B"]⟩).1.countP isDiag = 1 := by
  have h := claim7_spki_leniency (fun s => if s = "!" then none else some [7])
    ⟨0, 0, ["A"], ["!"], ["B"]⟩ ["A"] ["B"] "!" rfl (by decide) (by decide) (by decide)
  exact ⟨h.1, h.2.1, h.2.2.1, h.2.2.2⟩

/-- Claim C8 counterexample: a 4-byte input whose first four bytes are not
the magic fails, but with the CRX-header-parse diagnostic, not the
not-a-container diagnostic, because the 12-byte fixed header is read before
the magic is compared. -/
theorem claim8_counterexample :
    ([65, 66, 67, 68] : List Nat).take 4 ≠ crMagic
    ∧ decodeContainer [65, 66, 67, 68] = .error "Failed to parse CRX header"
    ∧ "Failed to parse CRX header" ≠ "Downloaded file doesn't look like a CRX" := by
  exact ⟨by decide, rfl, by decide⟩

/-- Claim C8 amended: for every input of at least 12 bytes (a complete
fixed header) whose first four bytes are not the magic Cr24, container
decoding fails with the not-a-container diagnostic regardless of all
subsequent byte content; shorter inputs fail with the header-parse
diagnostic instead. -/
theorem claim8_not_a_container (crx : List Nat) (hlen : 12 ≤ crx.length)
    (hmagic : crx.take 4 ≠ crMagic) :
    decodeContainer crx = .error "Downloaded file doesn't look like a CRX" := by
  unfold decodeContainer
  rw [if_neg (by omega), if_pos (Or.inl hmagic)]

/-- Witness for the amended claim C8 at a 12-byte zero input. -/
theorem claim8_not_a_container_witness :
    12 ≤ (List.replicate 12 0 : List Nat).length
    ∧ (List.replicate 12 0 : List Nat).take 4 ≠ crMagic
    ∧ decodeContainer (List.replicate 12 0) =
      .error "Downloaded file doesn't look like a CRX" := by
  refine ⟨by decide, by decide, ?_⟩
  exact claim8_not_a_container (List.replicate 12 0) (by decide) (by decide)

/-- Claim C9: ReadAt returns zero bytes copied and no error for every
negative position, and returns no error for every position it handles,
including positions at or near the end of the buffer where fewer bytes than
requested are copied. -/
theorem claim9_readat_clamp (z : List Nat) (plen : Nat) (pos : Int) :
    (pos < 0 → zipReaderReadAt z plen pos = some (0, none))
    ∧ (∀ r : Nat × Option String, zipReaderReadAt z plen pos = some r → r.2 = none) := by
  constructor
  · intro h
    simp [zipReaderReadAt, h]
  · intro r hr
    unfold zipReaderReadAt at hr
    split at hr
    · cases hr; rfl
    · split at hr
      · cases hr; rfl
      · cases hr

/-- Witness for claim C9: a negative position clamps to a zero-length read;
a short read near the end carries no error. -/
theorem claim9_readat_clamp_witness :
    zipReaderReadAt [1, 2, 3] 5 (-4) = some (0, none)
    ∧ ((1 : Nat), (none : Option String)).2 = none := by
  refine ⟨(claim9_readat_clamp [1, 2, 3] 5 (-4)).1 (by decide), ?_⟩
  exact (claim9_readat_clamp [1, 2, 3] 5 2).2 (1, none) rfl

end Crlset
